import Mathlib

/-!
Verification development for the vcv toolchain-discovery pipeline.

The Rust sources are shallowly embedded as Lean functions:
paths are modelled as plain strings joined with a backslash separator
(mirroring PathBuf::join on relative components), the filesystem and
the Windows registry are modelled as explicit read-only oracles passed
to every function that performs I/O in the source, and the external
vswhere enumeration is modelled by passing the parsed candidate list
as an argument.  Rust string comparison (byte-lexicographic Ord on str)
is modelled by a structurally recursive character-wise comparison so
that every definition evaluates inside the kernel; Rust stable
sort_by is modelled by a stable insertion sort, which produces the
same output list as any stable sort for a total preorder comparator.
-/

/-- Lexicographic comparison of character lists by code point, the model
of byte-lexicographic string Ord in the source language. -/
def charsLe : List Char → List Char → Bool
  | [], _ => true
  | _ :: _, [] => false
  | a :: as, b :: bs =>
    if a.toNat < b.toNat then true
    else if b.toNat < a.toNat then false
    else charsLe as bs

/-- String comparison used by every sort_by call in the source. -/
def strLe (a b : String) : Bool := charsLe a.data b.data

/-- Model of str::starts_with from the source. -/
def strStartsWith (s p : String) : Bool := p.data.isPrefixOf s.data

/-- Stable insertion of an element into a list: the element goes in
front of the first position it compares le to, so that among equal
elements the earlier input stays first. -/
def insertLe {α : Type} (le : α → α → Bool) (a : α) : List α → List α
  | [] => [a]
  | b :: bs => if le a b then a :: b :: bs else b :: insertLe le a bs

/-- Stable insertion sort, the model of the stable sort_by of the
source language: for a total preorder comparator every stable sort
returns the same list. -/
def insSort {α : Type} (le : α → α → Bool) : List α → List α
  | [] => []
  | x :: xs => insertLe le x (insSort le xs)

/-- Model of ASCII whitespace used by str::trim in the source. -/
def isWs (c : Char) : Bool := c = ' ' || c = '\t' || c = '\n' || c = '\r'

/-- Model of str::trim: strip leading and trailing whitespace. -/
def strTrim (s : String) : String :=
  ⟨((s.data.dropWhile isWs).reverse.dropWhile isWs).reverse⟩

/-- Read-only filesystem oracle: existence, directory test, file
content, directory listing.  Every filesystem call the source makes
goes through one of these four capabilities. -/
structure FS where
  pathExists : String → Bool
  isDir : String → Bool
  readFile : String → Option String
  readDir : String → Option (List String)

/-- Model of PathBuf::join for the relative components the source
joins: parent, separator, child. -/
def pjoin (p c : String) : String := p ++ "\\" ++ c

/-- Registry root authorities probed by the source. -/
inductive RegRoot
  | HKLM
  | HKCU
deriving DecidableEq

/-- Read-only registry oracle keyed by authority, full key path and
value name. -/
structure Registry where
  get : RegRoot → String → String → Option String

/-- Embedding of reg_val from src/registry.rs: read a single registry
value at a specific key. -/
def reg_val (reg : Registry) (root : RegRoot) (path name : String) : Option String :=
  reg.get root path name

/-- Embedding of reg_find from src/registry.rs: probe HKLM then HKCU,
each first under the Wow6432Node prefix and then under the native
SOFTWARE prefix, returning the first successful read. -/
def reg_find (reg : Registry) (path name : String) : Option String :=
  [RegRoot.HKLM, RegRoot.HKCU].findSome? fun root =>
    ["SOFTWARE\\Wow6432Node", "SOFTWARE"].findSome? fun pre =>
      reg_val reg root (pre ++ "\\" ++ path) name

/-- Candidate record parsed from the vswhere JSON output, from
src/detect.rs. -/
structure VsWhereEntry where
  installation_path : String
  installation_version : String
deriving DecidableEq

/-- Visual Studio installation info, from src/detect.rs. -/
structure VsInfo where
  install : String
  version : String
  vc : String
  tools_ver : String
  tools : String
deriving DecidableEq

/-- SDK or UCRT info, from src/detect.rs (struct SdkInfo). -/
structure SdkInfo where
  path : String
  version : String
deriving DecidableEq

/-- Embedding of read_txt from src/detect.rs: read a single-line text
file and trim it. -/
def read_txt (fs : FS) (path : String) : Option String :=
  (fs.readFile path).map strTrim

/-- Embedding of build_vs_info from src/detect.rs: derive the VC root,
read the toolset version marker (v143 first, then the generic default),
and require the derived toolset directory to exist. -/
def build_vs_info (fs : FS) (vs : VsWhereEntry) : Option VsInfo :=
  let install := vs.installation_path
  let vc := pjoin install "VC"
  let aux := pjoin (pjoin vc "Auxiliary") "Build"
  match (read_txt fs (pjoin aux "Microsoft.VCToolsVersion.v143.default.txt")).orElse
      (fun _ => read_txt fs (pjoin aux "Microsoft.VCToolsVersion.default.txt")) with
  | none => none
  | some tools_ver =>
    let tools := pjoin (pjoin (pjoin vc "Tools") "MSVC") tools_ver
    if fs.pathExists tools then
      some ⟨install, vs.installation_version, vc, tools_ver, tools⟩
    else
      none

/-- Major-version string selected from the year constraint in
detect_vs (src/detect.rs lines 97-102). -/
def yearMajor (year : Nat) : Option String :=
  if year = 2017 then some "15."
  else if year = 2019 then some "16."
  else if year = 2022 then some "17."
  else none

/-- Comparator of the sort_by call in detect_vs: candidates sorted by
version string descending. -/
def entryGe (a b : VsWhereEntry) : Bool :=
  strLe b.installation_version a.installation_version

/-- Embedding of detect_vs from src/detect.rs.  The vswhere enumeration
is externalized: entries is the parsed candidate list (an absent or
failing vswhere yields the empty list).  With a year constraint the
candidates are filtered by major-version prefix (an unknown year fails
resolution); the survivors are sorted by version descending and the
first candidate for which build_vs_info succeeds is returned. -/
def detect_vs (fs : FS) (entries : List VsWhereEntry) (vs_year : Option Nat) :
    Option VsInfo :=
  match vs_year with
  | some year =>
    match yearMajor year with
    | none => none
    | some major =>
      let filtered := entries.filter
        (fun e => strStartsWith e.installation_version major)
      (insSort entryGe filtered).findSome? (build_vs_info fs)
  | none =>
    (insSort entryGe entries).findSome? (build_vs_info fs)

/-- Embedding of list_vs_versions from src/detect.rs: map each
candidate whose version starts with 17., 16. or 15. to its year label,
dropping every other candidate. -/
def list_vs_versions (entries : List VsWhereEntry) : List (Nat × String) :=
  entries.filterMap fun e =>
    if strStartsWith e.installation_version "17." then
      some (2022, e.installation_version)
    else if strStartsWith e.installation_version "16." then
      some (2019, e.installation_version)
    else if strStartsWith e.installation_version "15." then
      some (2017, e.installation_version)
    else
      none

/-- Registry key probed by detect_sdk. -/
def sdkRegKey : String := "Microsoft\\Microsoft SDKs\\Windows\\v10.0"

/-- Registry key probed by detect_ucrt. -/
def ucrtRegKey : String := "Microsoft\\Windows Kits\\Installed Roots"

/-- Filter applied to each entry of the SDK include directory in
detect_sdk: the entry must be a directory, be named 10.*, and contain
the um/winsdkver.h marker. -/
def sdkEntryOk (fs : FS) (inc n : String) : Bool :=
  fs.isDir (pjoin inc n) &&
    (strStartsWith n "10." &&
      fs.pathExists (pjoin (pjoin (pjoin inc n) "um") "winsdkver.h"))

/-- Embedding of detect_sdk from src/detect.rs: find the SDK root via
the registry, require its include subdirectory to exist, keep the
10.* entries containing the winsdkver.h marker, and pick the
lexicographically greatest surviving name. -/
def detect_sdk (fs : FS) (reg : Registry) : Option SdkInfo :=
  match reg_find reg sdkRegKey "InstallationFolder" with
  | none => none
  | some sdk_path =>
    let inc := pjoin sdk_path "include"
    if fs.pathExists inc then
      match fs.readDir inc with
      | none => none
      | some names =>
        let versions := names.filter (sdkEntryOk fs inc)
        match insSort (fun a b => strLe b a) versions with
        | [] => none
        | v :: _ => some ⟨sdk_path, v⟩
    else
      none

/-- Filter applied to each entry of the UCRT Lib directory in
detect_ucrt: the entry must be a directory, be named 10.*, and contain
the ucrt/x64/ucrt.lib marker; the marker is always probed under x64. -/
def ucrtEntryOk (fs : FS) (lib n : String) : Bool :=
  fs.isDir (pjoin lib n) &&
    (strStartsWith n "10." &&
      fs.pathExists (pjoin (pjoin (pjoin (pjoin lib n) "ucrt") "x64") "ucrt.lib"))

/-- Embedding of detect_ucrt from src/detect.rs: find the kits root via
the registry, require its Lib subdirectory to exist, keep the 10.*
entries containing the x64 ucrt.lib marker, and pick the
lexicographically greatest surviving name. -/
def detect_ucrt (fs : FS) (reg : Registry) : Option SdkInfo :=
  match reg_find reg ucrtRegKey "KitsRoot10" with
  | none => none
  | some ucrt_path =>
    let lib := pjoin ucrt_path "Lib"
    if fs.pathExists lib then
      match fs.readDir lib with
      | none => none
      | some names =>
        let versions := names.filter (ucrtEntryOk fs lib)
        match insSort (fun a b => strLe b a) versions with
        | [] => none
        | v :: _ => some ⟨ucrt_path, v⟩
    else
      none

/-- Architecture enum from src/main.rs. -/
inductive Arch
  | X64
  | X86
  | Arm64
deriving DecidableEq

/-- Embedding of Arch::as_str from src/main.rs. -/
def Arch.as_str : Arch → String
  | .X64 => "x64"
  | .X86 => "x86"
  | .Arm64 => "arm64"

/-- Host directory name selected in build_env (src/env.rs lines 49-53). -/
def hostDir : Arch → String
  | .X64 => "Hostx64"
  | .X86 => "Hostx86"
  | .Arm64 => "Hostarm64"

/-- Assembled environment from src/env.rs.  The include field of the
source struct is spelled inc here because include is a Lean keyword;
the BTreeMap of variables is modelled as a key-sorted association
list maintained by varsInsert. -/
structure Env where
  path : List String
  inc : List String
  lib : List String
  libpath : List String
  vars : List (String × String)
deriving DecidableEq

/-- Embedding of Env::add_if_exists from src/env.rs: append, in order,
every given path that exists on disk. -/
def add_if_exists (fs : FS) (lst : List String) (paths : List String) :
    List String :=
  lst ++ paths.filter fs.pathExists

/-- Sorted-insertion into the association list modelling the BTreeMap
of variables: insertion keeps keys sorted ascending and replaces an
equal key, matching BTreeMap::insert followed by sorted iteration. -/
def varsInsert (m : List (String × String)) (k v : String) :
    List (String × String) :=
  match m with
  | [] => [(k, v)]
  | (k0, v0) :: rest =>
    if strLe k k0 then
      if k = k0 then (k, v) :: rest
      else (k, v) :: (k0, v0) :: rest
    else
      (k0, v0) :: varsInsert rest k v

/-- Lookup in the variables table, the model of BTreeMap::get. -/
def varsLookup (m : List (String × String)) (k : String) : Option String :=
  match m with
  | [] => none
  | (k0, v0) :: rest => if k0 = k then some v0 else varsLookup rest k

/-- Embedding of build_env from src/env.rs: assemble the four ordered
path lists (each constructed path filtered by on-disk existence) and
the variables table from the toolchain, the optional SDK, the optional
UCRT and the host and target architectures. -/
def build_env (fs : FS) (vs : VsInfo) (sdk ucrt : Option SdkInfo)
    (host target : Arch) : Env :=
  let tp := vs.tools
  let hd := hostDir host
  let tgt := target.as_str
  let path1 := add_if_exists fs [] [pjoin (pjoin (pjoin tp "bin") hd) tgt]
  let path2 :=
    if host ≠ target then
      add_if_exists fs path1 [pjoin (pjoin (pjoin tp "bin") hd) host.as_str]
    else
      path1
  let inc1 := add_if_exists fs []
    [pjoin tp "include", pjoin (pjoin tp "ATLMFC") "include"]
  let lib1 := add_if_exists fs []
    [pjoin (pjoin tp "lib") tgt, pjoin (pjoin (pjoin tp "ATLMFC") "lib") tgt]
  let libpath1 := add_if_exists fs []
    [pjoin (pjoin tp "lib") tgt, pjoin (pjoin (pjoin tp "ATLMFC") "lib") tgt]
  let path3 :=
    match sdk with
    | some s =>
      add_if_exists fs path2
        [pjoin (pjoin (pjoin s.path "bin") s.version) host.as_str]
    | none => path2
  let inc2 :=
    match sdk with
    | some s =>
      add_if_exists fs inc1
        [pjoin (pjoin (pjoin s.path "include") s.version) "um",
         pjoin (pjoin (pjoin s.path "include") s.version) "shared",
         pjoin (pjoin (pjoin s.path "include") s.version) "winrt",
         pjoin (pjoin (pjoin s.path "include") s.version) "cppwinrt"]
    | none => inc1
  let lib2 :=
    match sdk with
    | some s =>
      add_if_exists fs lib1
        [pjoin (pjoin (pjoin (pjoin s.path "lib") s.version) "um") tgt]
    | none => lib1
  let libpath2 :=
    match sdk with
    | some s =>
      add_if_exists fs libpath1
        [pjoin (pjoin s.path "UnionMetadata") s.version,
         pjoin (pjoin s.path "References") s.version]
    | none => libpath1
  let inc3 :=
    match ucrt with
    | some u =>
      add_if_exists fs inc2
        [pjoin (pjoin (pjoin u.path "include") u.version) "ucrt"]
    | none => inc2
  let lib3 :=
    match ucrt with
    | some u =>
      add_if_exists fs lib2
        [pjoin (pjoin (pjoin (pjoin u.path "lib") u.version) "ucrt") tgt]
    | none => lib2
  let vars1 := varsInsert [] "VSINSTALLDIR" (vs.install ++ "\\")
  let vars2 := varsInsert vars1 "VCINSTALLDIR" (vs.vc ++ "\\")
  let vars3 := varsInsert vars2 "VCToolsInstallDir" (tp ++ "\\")
  let vars4 := varsInsert vars3 "VCToolsVersion" vs.tools_ver
  let vars5 := varsInsert vars4 "VisualStudioVersion" "17.0"
  let vars6 := varsInsert vars5 "Platform" tgt
  let vars7 :=
    match sdk with
    | some s =>
      varsInsert (varsInsert vars6 "WindowsSdkDir" (s.path ++ "\\"))
        "WindowsSDKVersion" (s.version ++ "\\")
    | none => vars6
  let vars8 :=
    match ucrt with
    | some u =>
      varsInsert (varsInsert vars7 "UniversalCRTSdkDir" (u.path ++ "\\"))
        "UCRTVersion" u.version
    | none => vars7
  ⟨path3, inc3, lib3, libpath2, vars8⟩

/-- Embedding of win_to_unix from src/format.rs: a string whose second
character is a colon loses the drive prefix, which becomes a slash and
the lower-cased drive letter; backslashes become forward slashes.
Character positions model the byte positions of the source for the
single-byte strings the program handles. -/
def win_to_unix (s : String) : String :=
  match s.data with
  | c0 :: ':' :: rest =>
    ⟨'/' :: c0.toLower :: rest.map (fun c => if c = '\\' then '/' else c)⟩
  | _ => ⟨s.data.map (fun c => if c = '\\' then '/' else c)⟩

/-- Lines of the bash/MSYS2 rendering built by fmt_sh from
src/format.rs: the PATH entries are converted by win_to_unix and
joined with colons, the other three lists and the variables are
rendered with their native text. -/
def fmtShLines (env : Env) : List String :=
  (if env.path.isEmpty then [] else
    ["export PATH=\"" ++ String.intercalate ":" (env.path.map win_to_unix)
      ++ ":$PATH\""]) ++
  (if env.inc.isEmpty then [] else
    ["export INCLUDE=\"" ++ String.intercalate ";" env.inc
      ++ ";$INCLUDE\""]) ++
  (if env.lib.isEmpty then [] else
    ["export LIB=\"" ++ String.intercalate ";" env.lib ++ ";$LIB\""]) ++
  (if env.libpath.isEmpty then [] else
    ["export LIBPATH=\"" ++ String.intercalate ";" env.libpath
      ++ ";$LIBPATH\""]) ++
  env.vars.map (fun kv => "export " ++ kv.1 ++ "=\"" ++ kv.2 ++ "\"")

/-- Embedding of fmt_sh from src/format.rs: the rendered lines joined
by newlines. -/
def fmt_sh (env : Env) : String :=
  String.intercalate "\n" (fmtShLines env)


/-- Fixture filesystem in which the installation roots A and B both
carry a readable toolset marker naming toolset 1.0 and the derived
toolset directory exists, so both candidates pass layout
verification. -/
def fs1 : FS where
  pathExists := fun p =>
    p = "A\\VC\\Tools\\MSVC\\1.0" || p = "B\\VC\\Tools\\MSVC\\1.0"
  isDir := fun _ => false
  readFile := fun p =>
    if p = "A\\VC\\Auxiliary\\Build\\Microsoft.VCToolsVersion.v143.default.txt" then
      some "1.0"
    else if p = "B\\VC\\Auxiliary\\Build\\Microsoft.VCToolsVersion.v143.default.txt" then
      some "1.0"
    else
      none
  readDir := fun _ => none

/-- Candidate at root A with version 17.0. -/
def cxA : VsWhereEntry := ⟨"A", "17.0"⟩

/-- Candidate at root B with the same version 17.0. -/
def cxB : VsWhereEntry := ⟨"B", "17.0"⟩

/-- Candidate at root A with version 16.9, distinct from cxB. -/
def cxA2 : VsWhereEntry := ⟨"A", "16.9"⟩

/-- Candidate at root A with a 14.x version string. -/
def e14 : VsWhereEntry := ⟨"A", "14.3"⟩

/-- Resolution result for e14 under fs1. -/
def info14 : VsInfo :=
  ⟨"A", "14.3", "A\\VC", "1.0", "A\\VC\\Tools\\MSVC\\1.0"⟩

/-- Fixture filesystem on which nothing exists. -/
def fsNone : FS where
  pathExists := fun _ => false
  isDir := fun _ => false
  readFile := fun _ => none
  readDir := fun _ => none

/-- Fixture toolchain used by the assembly theorems. -/
def vs0 : VsInfo :=
  ⟨"A", "17.0", "A\\VC", "1.0", "A\\VC\\Tools\\MSVC\\1.0"⟩

/-- Fixture filesystem in which the x64-hosted arm64 and x64 binary
directories of the vs0 toolset exist. -/
def fsBins : FS where
  pathExists := fun p =>
    p = "A\\VC\\Tools\\MSVC\\1.0\\bin\\Hostx64\\arm64" ||
      p = "A\\VC\\Tools\\MSVC\\1.0\\bin\\Hostx64\\x64"
  isDir := fun _ => false
  readFile := fun _ => none
  readDir := fun _ => none

/-- Fixture registry holding, under the machine-wide authority, one
value at the Wow6432Node-prefixed key K and a different value at the
native key K. -/
def regShadow : Registry where
  get := fun root p _ =>
    if root = RegRoot.HKLM then
      if p = "SOFTWARE\\Wow6432Node\\K" then some "shadow"
      else if p = "SOFTWARE\\K" then some "native"
      else none
    else
      none

/-- Fixture registry answering every InstallationFolder probe with the
root R. -/
def regSdk : Registry where
  get := fun _ _ name => if name = "InstallationFolder" then some "R" else none

/-- Fixture filesystem for the SDK scenario: the include root lists
10.0.19041.0 (marker absent) and 10.0.22000.0 (marker present). -/
def fsSdk : FS where
  pathExists := fun p =>
    p = "R\\include" || p = "R\\include\\10.0.22000.0\\um\\winsdkver.h"
  isDir := fun p =>
    p = "R\\include\\10.0.19041.0" || p = "R\\include\\10.0.22000.0"
  readFile := fun _ => none
  readDir := fun p =>
    if p = "R\\include" then some ["10.0.19041.0", "10.0.22000.0"] else none

/-- Fixture registry answering every KitsRoot10 probe with the root U. -/
def regUcrt : Registry where
  get := fun _ _ name => if name = "KitsRoot10" then some "U" else none

/-- Fixture filesystem for the UCRT scenario: one version directory
with the x64 ucrt.lib marker present. -/
def fsUcrt : FS where
  pathExists := fun p =>
    p = "U\\Lib" || p = "U\\Lib\\10.0.22000.0\\ucrt\\x64\\ucrt.lib"
  isDir := fun p => p = "U\\Lib\\10.0.22000.0"
  readFile := fun _ => none
  readDir := fun p => if p = "U\\Lib" then some ["10.0.22000.0"] else none

/-- Fixture environment with one Windows-style entry in each list and
one variable, for exercising the shell rendering. -/
def envSh : Env :=
  ⟨["C:\\VC\\bin"], ["C:\\VC\\include"], ["C:\\VC\\lib"],
    ["C:\\VC\\ref"], [("Platform", "x64")]⟩

-- ### Theorems ###

theorem charsLe_refl (a : List Char) : charsLe a a = true := by
  induction a with
  | nil => rfl
  | cons x xs ih => simp [charsLe, ih]

theorem charsLe_total (a b : List Char) : (charsLe a b || charsLe b a) = true := by
  induction a generalizing b with
  | nil => simp [charsLe]
  | cons x xs ih =>
    cases b with
    | nil => simp [charsLe]
    | cons y ys =>
      by_cases h1 : x.toNat < y.toNat
      · simp [charsLe, h1]
      · by_cases h2 : y.toNat < x.toNat
        · simp [charsLe, h1, h2]
        · simp [charsLe, h1, h2, ih ys]

theorem charsLe_cons_iff (x y : Char) (xs ys : List Char) :
    charsLe (x :: xs) (y :: ys) = true ↔
      (x.toNat < y.toNat ∨ (x.toNat = y.toNat ∧ charsLe xs ys = true)) := by
  by_cases h1 : x.toNat < y.toNat
  · simp [charsLe, h1]
  · by_cases h2 : y.toNat < x.toNat
    · simp only [charsLe, if_neg h1, if_pos h2]
      constructor
      · intro h; exact absurd h (by simp)
      · rintro (h | ⟨h, -⟩) <;> omega
    · have h3 : x.toNat = y.toNat := by omega
      simp [charsLe, h1, h2, h3]

theorem char_eq_of_toNat_eq {a b : Char} (h : a.toNat = b.toNat) : a = b := by
  have hv : a.val = b.val := by
    apply UInt32.eq_of_val_eq
    apply Fin.ext
    simpa [Char.toNat, UInt32.toNat] using h
  exact Char.ext hv

theorem charsLe_trans {a b c : List Char} (hab : charsLe a b = true)
    (hbc : charsLe b c = true) : charsLe a c = true := by
  induction a generalizing b c with
  | nil => cases c <;> simp [charsLe]
  | cons x xs ih =>
    cases b with
    | nil => simp [charsLe] at hab
    | cons y ys =>
      cases c with
      | nil => simp [charsLe] at hbc
      | cons z zs =>
        rw [charsLe_cons_iff] at hab hbc ⊢
        rcases hab with h | ⟨h, hab2⟩ <;> rcases hbc with h2 | ⟨h2, hbc2⟩
        · left; omega
        · left; omega
        · left; omega
        · right; exact ⟨by omega, ih hab2 hbc2⟩

theorem charsLe_antisymm {a b : List Char} (hab : charsLe a b = true)
    (hba : charsLe b a = true) : a = b := by
  induction a generalizing b with
  | nil => cases b with
    | nil => rfl
    | cons y ys => simp [charsLe] at hba
  | cons x xs ih =>
    cases b with
    | nil => simp [charsLe] at hab
    | cons y ys =>
      rw [charsLe_cons_iff] at hab hba
      rcases hab with h | ⟨h, hab2⟩ <;> rcases hba with h2 | ⟨h2, hba2⟩ <;>
        try omega
      rw [char_eq_of_toNat_eq h, ih hab2 hba2]

theorem strLe_refl (a : String) : strLe a a = true := charsLe_refl a.data

theorem strLe_total (a b : String) : (strLe a b || strLe b a) = true :=
  charsLe_total a.data b.data

theorem strLe_trans {a b c : String} (hab : strLe a b = true)
    (hbc : strLe b c = true) : strLe a c = true := charsLe_trans hab hbc

theorem strLe_antisymm {a b : String} (hab : strLe a b = true)
    (hba : strLe b a = true) : a = b := by
  cases a with
  | mk la => cases b with
    | mk lb =>
      have : la = lb := charsLe_antisymm hab hba
      rw [this]

theorem insertLe_perm {α : Type} (le : α → α → Bool) (a : α) (l : List α) :
    (insertLe le a l).Perm (a :: l) := by
  induction l with
  | nil => exact List.Perm.refl _
  | cons b bs ih =>
    simp only [insertLe]
    split
    · exact List.Perm.refl _
    · exact (List.Perm.cons b ih).trans (List.Perm.swap a b bs)

theorem insSort_perm {α : Type} (le : α → α → Bool) (l : List α) :
    (insSort le l).Perm l := by
  induction l with
  | nil => exact List.Perm.refl _
  | cons x xs ih =>
    exact (insertLe_perm le x (insSort le xs)).trans (List.Perm.cons x ih)

theorem mem_insSort {α : Type} (le : α → α → Bool) {a : α} {l : List α} :
    a ∈ insSort le l ↔ a ∈ l := (insSort_perm le l).mem_iff

theorem insertLe_pairwise {α : Type} (le : α → α → Bool)
    (htrans : ∀ x y z : α, le x y = true → le y z = true → le x z = true)
    (htot : ∀ x y : α, (le x y || le y x) = true)
    (a : α) (l : List α) (h : l.Pairwise (fun x y => le x y = true)) :
    (insertLe le a l).Pairwise (fun x y => le x y = true) := by
  induction l with
  | nil => simp [insertLe]
  | cons b bs ih =>
    rcases h with - | ⟨hb, hbs⟩
    simp only [insertLe]
    split
    · rename_i hab
      refine List.Pairwise.cons ?_ (List.Pairwise.cons hb hbs)
      intro y hy
      rcases List.mem_cons.mp hy with rfl | hy
      · exact hab
      · exact htrans a b y hab (hb y hy)
    · rename_i hab
      have hba : le b a = true := by
        have := htot a b
        simp [hab] at this
        exact this
      refine List.Pairwise.cons ?_ (ih hbs)
      intro y hy
      have : y ∈ a :: bs := (insertLe_perm le a bs).mem_iff.mp hy
      rcases List.mem_cons.mp this with rfl | hy2
      · exact hba
      · exact hb y hy2

theorem insSort_pairwise {α : Type} (le : α → α → Bool)
    (htrans : ∀ x y z : α, le x y = true → le y z = true → le x z = true)
    (htot : ∀ x y : α, (le x y || le y x) = true)
    (l : List α) : (insSort le l).Pairwise (fun x y => le x y = true) := by
  induction l with
  | nil => simp [insSort]
  | cons x xs ih => exact insertLe_pairwise le htrans htot x (insSort le xs) ih

/-- Two permuted lists that are both sorted descending by a string key
are equal when the keys are pairwise distinct. -/
theorem sorted_perm_nodup_eq {α : Type} (key : α → String) :
    ∀ (l1 l2 : List α), l1.Perm l2 →
      l1.Pairwise (fun a b => strLe (key b) (key a) = true) →
      l2.Pairwise (fun a b => strLe (key b) (key a) = true) →
      (l1.map key).Nodup → l1 = l2
  | [], l2, hp, _, _, _ => (hp.symm.eq_nil).symm
  | a :: t1, [], hp, _, _, _ => absurd hp.eq_nil (by simp)
  | a :: t1, b :: t2, hp, h1, h2, hnd => by
    rcases h1 with - | ⟨ha, ht1⟩
    rcases h2 with - | ⟨hb, ht2⟩
    have hab : a = b := by
      have hamem : a ∈ b :: t2 := hp.mem_iff.mp (List.mem_cons_self a t1)
      have hbmem : b ∈ a :: t1 := hp.symm.mem_iff.mp (List.mem_cons_self b t2)
      rcases List.mem_cons.mp hamem with h | hat2
      · exact h
      · rcases List.mem_cons.mp hbmem with h | hbt1
        · exact h.symm
        · -- a sits in t2 and b sits in t1: the two keys must coincide,
          -- contradicting distinctness of the keys.
          have h1k : strLe (key a) (key b) = true := hb a hat2
          have h2k : strLe (key b) (key a) = true := ha b hbt1
          have hk : key a = key b := strLe_antisymm h1k h2k
          have hknot : key a ∉ List.map key t1 := by
            have := List.nodup_cons.mp hnd
            simpa using this.1
          exact absurd (hk ▸ List.mem_map_of_mem key hbt1) hknot
    subst hab
    have hpt : t1.Perm t2 := hp.cons_inv
    have hndt : (t1.map key).Nodup := by
      have := List.nodup_cons.mp hnd
      exact this.2
    rw [sorted_perm_nodup_eq key t1 t2 hpt ht1 ht2 hndt]

/-- First success of an option-valued function over a descending-sorted
list comes from an element whose key is maximal among all elements on
which the function succeeds. -/
theorem findSome?_sorted_max {α β : Type} (le : α → α → Bool)
    (hrefl : ∀ x : α, le x x = true)
    (f : α → Option β) :
    ∀ (l : List α), l.Pairwise (fun x y => le x y = true) →
      ∀ b, l.findSome? f = some b →
        ∃ a ∈ l, f a = some b ∧
          ∀ x ∈ l, (f x).isSome = true → le a x = true
  | [], _, b, h => by simp [List.findSome?] at h
  | x :: xs, hs, b, h => by
    rcases hs with - | ⟨hx, hxs⟩
    rw [List.findSome?_cons] at h
    cases hfx : f x with
    | some b0 =>
      rw [hfx] at h
      refine ⟨x, List.mem_cons_self x xs, by simpa [hfx] using h, ?_⟩
      intro e he _
      rcases List.mem_cons.mp he with rfl | he2
      · exact hrefl _
      · exact hx e he2
    | none =>
      rw [hfx] at h
      obtain ⟨a, hamem, hfa, hmax⟩ := findSome?_sorted_max le hrefl f xs hxs b h
      refine ⟨a, List.mem_cons_of_mem x hamem, hfa, ?_⟩
      intro e he hse
      rcases List.mem_cons.mp he with rfl | he2
      · rw [hfx] at hse; simp at hse
      · exact hmax e he2 hse

theorem entryGe_refl (a : VsWhereEntry) : entryGe a a = true :=
  strLe_refl a.installation_version

theorem entryGe_trans (a b c : VsWhereEntry) (h1 : entryGe a b = true)
    (h2 : entryGe b c = true) : entryGe a c = true :=
  strLe_trans h2 h1

theorem entryGe_total (a b : VsWhereEntry) :
    (entryGe a b || entryGe b a) = true :=
  strLe_total b.installation_version a.installation_version

theorem build_vs_info_version (fs : FS) (e : VsWhereEntry) (info : VsInfo)
    (h : build_vs_info fs e = some info) :
    info.version = e.installation_version := by
  simp only [build_vs_info] at h
  split at h
  · exact absurd h (by simp)
  · split at h
    · rw [← Option.some.inj h]
    · exact absurd h (by simp)

/-- Maximality of the first-valid-after-descending-sort scheme: a
successful unconstrained detection is built from a candidate whose
version is greatest among all candidates passing layout
verification. -/
theorem detect_vs_none_max (fs : FS) (l : List VsWhereEntry) (info : VsInfo)
    (h : detect_vs fs l none = some info) :
    ∃ e ∈ l, build_vs_info fs e = some info ∧
      ∀ x ∈ l, (build_vs_info fs x).isSome = true →
        strLe x.installation_version e.installation_version = true := by
  have hs : (insSort entryGe l).Pairwise (fun x y => entryGe x y = true) :=
    insSort_pairwise entryGe entryGe_trans entryGe_total l
  have h2 : (insSort entryGe l).findSome? (build_vs_info fs) = some info := h
  obtain ⟨a, ha, hfa, hmax⟩ :=
    findSome?_sorted_max entryGe entryGe_refl (build_vs_info fs)
      (insSort entryGe l) hs info h2
  exact ⟨a, (mem_insSort entryGe).mp ha, hfa,
    fun x hx hsx => hmax x ((mem_insSort entryGe).mpr hx) hsx⟩

/-- Sorting is determined by the multiset of candidates once the
version strings are pairwise distinct. -/
theorem insSort_entry_eq_of_perm (l1 l2 : List VsWhereEntry)
    (hp : l1.Perm l2)
    (hnd : (l1.map (fun e => e.installation_version)).Nodup) :
    insSort entryGe l1 = insSort entryGe l2 := by
  apply sorted_perm_nodup_eq (fun e => e.installation_version)
  · exact (insSort_perm entryGe l1).trans
      (hp.trans (insSort_perm entryGe l2).symm)
  · exact insSort_pairwise entryGe entryGe_trans entryGe_total l1
  · exact insSort_pairwise entryGe entryGe_trans entryGe_total l2
  · exact ((insSort_perm entryGe l1).map _).symm.nodup hnd

/-- Permutation invariance of detection for candidate lists with
pairwise-distinct version strings, for every constraint value. -/
theorem detect_vs_eq_of_perm (fs : FS) (l1 l2 : List VsWhereEntry)
    (y : Option Nat) (hp : l1.Perm l2)
    (hnd : (l1.map (fun e => e.installation_version)).Nodup) :
    detect_vs fs l1 y = detect_vs fs l2 y := by
  cases y with
  | none =>
    show (insSort entryGe l1).findSome? (build_vs_info fs) =
      (insSort entryGe l2).findSome? (build_vs_info fs)
    rw [insSort_entry_eq_of_perm l1 l2 hp hnd]
  | some year =>
    cases hym : yearMajor year with
    | none => simp [detect_vs, hym]
    | some major =>
      simp only [detect_vs, hym]
      rw [insSort_entry_eq_of_perm _ _
        (hp.filter (fun e => strStartsWith e.installation_version major)) ?_]
      exact ((List.filter_sublist l1).map
        (fun e => e.installation_version)).nodup hnd

/-- Counterexample for claim C1: two candidates share the version string 17.0 at
distinct roots A and B, both passing layout verification under fs1;
the two orderings of the same unordered candidate set resolve to
different installations, so the final outcome of detect_vs is not
invariant under permutation of the input list. -/
theorem detect_vs_perm_counterexample :
    detect_vs fs1 [cxA, cxB] none ≠ detect_vs fs1 [cxB, cxA] none := by
  decide

/-- Claim C1 as amended: for every input list, detect_vs returns a
candidate whose version string is lexicographically greatest among the
candidates that pass layout verification (this holds unconditionally,
duplicated version strings included); the final outcome is the same
for any permutation of the input list provided no two candidates
share a version string (with duplicate version strings the resolved
root may depend on input order, as the counterexample shows). -/
theorem detect_vs_max_and_perm_invariant (fs : FS)
    (l1 l2 : List VsWhereEntry) (y : Option Nat) :
    (∀ info, detect_vs fs l1 none = some info →
      ∃ e ∈ l1, build_vs_info fs e = some info ∧
        ∀ x ∈ l1, (build_vs_info fs x).isSome = true →
          strLe x.installation_version e.installation_version = true) ∧
    (l1.Perm l2 → (l1.map (fun e => e.installation_version)).Nodup →
      detect_vs fs l1 y = detect_vs fs l2 y) :=
  ⟨fun info h => detect_vs_none_max fs l1 info h,
   fun hp hnd => detect_vs_eq_of_perm fs l1 l2 y hp hnd⟩

/-- Witness for the amended C1 theorem: the maximality conjunct is
applied at the duplicate-version list of the counterexample, where
detection resolves the first 17.0 candidate, and the invariance
conjunct at a concrete two-candidate list with distinct versions 16.9
and 17.0. -/
theorem detect_vs_max_and_perm_invariant_witness :
    (∃ e ∈ [cxA, cxB], build_vs_info fs1 e = some vs0 ∧
      ∀ x ∈ [cxA, cxB], (build_vs_info fs1 x).isSome = true →
        strLe x.installation_version e.installation_version = true) ∧
    detect_vs fs1 [cxA2, cxB] none = detect_vs fs1 [cxB, cxA2] none :=
  ⟨(detect_vs_max_and_perm_invariant fs1 [cxA, cxB] [cxA, cxB] none).1
      vs0 (by decide),
   (detect_vs_max_and_perm_invariant fs1 [cxA2, cxB] [cxB, cxA2] none).2
      (List.Perm.swap cxB cxA2 []) (by decide)⟩

/-- Successful detection under a major-version prefix filter yields an
info whose version starts with that prefix. -/
theorem detect_vs_major_starts (fs : FS) (l : List VsWhereEntry)
    (major : String) (info : VsInfo)
    (h : (insSort entryGe
        (l.filter (fun e => strStartsWith e.installation_version major))).findSome?
        (build_vs_info fs) = some info) :
    strStartsWith info.version major = true := by
  obtain ⟨e, he, hfe⟩ := List.exists_of_findSome?_eq_some h
  have he2 := (mem_insSort entryGe).mp he
  have hpre := (List.mem_filter.mp he2).2
  rw [build_vs_info_version fs e info hfe]
  exact hpre

/-- Claim C3: under the year constraints 2017, 2019 and 2022 a resolved
toolchain always carries the matching major-version prefix 15., 16.
or 17. respectively, and any other constraint year makes detection
return none outright. -/
theorem detect_vs_constraint_filtering (fs : FS) (l : List VsWhereEntry) :
    (∀ info, detect_vs fs l (some 2017) = some info →
      strStartsWith info.version "15." = true) ∧
    (∀ info, detect_vs fs l (some 2019) = some info →
      strStartsWith info.version "16." = true) ∧
    (∀ info, detect_vs fs l (some 2022) = some info →
      strStartsWith info.version "17." = true) ∧
    (∀ y, y ≠ 2017 → y ≠ 2019 → y ≠ 2022 → detect_vs fs l (some y) = none) := by
  refine ⟨?_, ?_, ?_, ?_⟩
  · intro info h
    exact detect_vs_major_starts fs l "15." info h
  · intro info h
    exact detect_vs_major_starts fs l "16." info h
  · intro info h
    exact detect_vs_major_starts fs l "17." info h
  · intro y h1 h2 h3
    have hym : yearMajor y = none := by simp [yearMajor, h1, h2, h3]
    simp [detect_vs, hym]

/-- Witness for C3: with constraint 2022 the resolved fixture version
starts with 17., and constraint 2018 resolves to none. -/
theorem detect_vs_constraint_filtering_witness :
    strStartsWith (VsInfo.version ⟨"B", "17.0", "B\\VC", "1.0",
      "B\\VC\\Tools\\MSVC\\1.0"⟩) "17." = true ∧
    detect_vs fs1 [cxA2, cxB] (some 2018) = none :=
  ⟨(detect_vs_constraint_filtering fs1 [cxA2, cxB]).2.2.1 _ (by decide),
   (detect_vs_constraint_filtering fs1 [cxA2, cxB]).2.2.2 2018
     (by decide) (by decide) (by decide)⟩

/-- Claim C9: the diagnostic listing reports only candidates whose version
string starts with 17., 16. or 15., while unconstrained detection
applies no version filtering: the concrete 14.3 candidate resolves
under fs1 yet is absent from the listing of the same candidate
list. -/
theorem detect_vs_unconstrained_vs_listing :
    (∀ (entries : List VsWhereEntry) (y : Nat) (v : String),
      (y, v) ∈ list_vs_versions entries →
        strStartsWith v "17." = true ∨ strStartsWith v "16." = true ∨
          strStartsWith v "15." = true) ∧
    detect_vs fs1 [e14] none = some info14 ∧
    strStartsWith info14.version "14." = true ∧
    list_vs_versions [e14] = [] := by
  refine ⟨?_, by decide, by decide, by decide⟩
  intro entries y v h
  obtain ⟨e, he, hfe⟩ := List.mem_filterMap.mp h
  split at hfe
  · rcases Prod.mk.inj (Option.some.inj hfe) with ⟨-, hv⟩
    subst hv
    left
    assumption
  · split at hfe
    · rcases Prod.mk.inj (Option.some.inj hfe) with ⟨-, hv⟩
      subst hv
      right; left
      assumption
    · split at hfe
      · rcases Prod.mk.inj (Option.some.inj hfe) with ⟨-, hv⟩
        subst hv
        right; right
        assumption
      · exact absurd hfe (by simp)

/-- Witness for C9 instantiating the listing clause at a concrete
candidate list. -/
theorem detect_vs_unconstrained_vs_listing_witness :
    strStartsWith "17.0" "17." = true ∨ strStartsWith "17.0" "16." = true ∨
      strStartsWith "17.0" "15." = true :=
  detect_vs_unconstrained_vs_listing.1 [cxA] 2022 "17.0" (by decide)

/-- Head of the descending sort of a filtered name list: it is a
surviving name and every surviving name is lexicographically at most
the head. -/
theorem insSort_filter_head_max (ok : String → Bool) (names : List String)
    (v : String) (rest : List String)
    (heq : insSort (fun a b => strLe b a) (names.filter ok) = v :: rest) :
    v ∈ names ∧ ok v = true ∧
      ∀ n ∈ names, ok n = true → strLe n v = true := by
  have hvmem : v ∈ insSort (fun a b => strLe b a) (names.filter ok) := by
    rw [heq]
    exact List.mem_cons_self v rest
  have hvf := (mem_insSort _).mp hvmem
  obtain ⟨hvn, hvok⟩ := List.mem_filter.mp hvf
  refine ⟨hvn, hvok, ?_⟩
  intro n hn hok
  have hnf : n ∈ names.filter ok := List.mem_filter.mpr ⟨hn, hok⟩
  have hns : n ∈ v :: rest := by
    rw [← heq]
    exact (mem_insSort _).mpr hnf
  have hp : (v :: rest).Pairwise (fun a b => strLe b a = true) := by
    rw [← heq]
    exact insSort_pairwise (fun a b => strLe b a)
      (fun x y z h1 h2 => strLe_trans h2 h1)
      (fun x y => strLe_total y x) (names.filter ok)
  rcases List.mem_cons.mp hns with rfl | hmem
  · exact strLe_refl n
  · rcases hp with - | ⟨hhead, -⟩
    exact hhead n hmem

/-- Characterization of detect_sdk: failure when the registry lookup
fails or the include subdirectory is missing, and on success the
version is a surviving 10.*-with-marker entry maximal among all
surviving entries of the listing. -/
theorem detect_sdk_char (fs : FS) (reg : Registry) :
    (reg_find reg sdkRegKey "InstallationFolder" = none →
      detect_sdk fs reg = none) ∧
    (∀ root, reg_find reg sdkRegKey "InstallationFolder" = some root →
      fs.pathExists (pjoin root "include") = false →
      detect_sdk fs reg = none) ∧
    (∀ info, detect_sdk fs reg = some info →
      ∃ root names, reg_find reg sdkRegKey "InstallationFolder" = some root ∧
        info.path = root ∧
        fs.readDir (pjoin root "include") = some names ∧
        info.version ∈ names ∧
        sdkEntryOk fs (pjoin root "include") info.version = true ∧
        ∀ n ∈ names, sdkEntryOk fs (pjoin root "include") n = true →
          strLe n info.version = true) := by
  refine ⟨?_, ?_, ?_⟩
  · intro h
    simp [detect_sdk, h]
  · intro root hr hni
    simp [detect_sdk, hr, hni]
  · intro info h
    simp only [detect_sdk] at h
    split at h
    · exact absurd h (by simp)
    · rename_i root hr
      split at h
      · split at h
        · exact absurd h (by simp)
        · rename_i names hd
          split at h
          · exact absurd h (by simp)
          · rename_i v rest hs
            have h2 := Option.some.inj h
            obtain ⟨hvn, hvok, hmax⟩ := insSort_filter_head_max _ names v rest hs
            refine ⟨root, names, hr, ?_, hd, ?_, ?_, ?_⟩
            · rw [← h2]
            · rw [← h2]
              exact hvn
            · rw [← h2]
              exact hvok
            · intro n hn hok
              rw [← h2]
              exact hmax n hn hok
      · exact absurd h (by simp)

/-- Characterization of detect_ucrt, mirroring detect_sdk: failure when
the registry lookup fails or the Lib subdirectory is missing, and on
success the version is a surviving 10.*-with-marker entry maximal
among all surviving entries of the listing. -/
theorem detect_ucrt_char (fs : FS) (reg : Registry) :
    (reg_find reg ucrtRegKey "KitsRoot10" = none →
      detect_ucrt fs reg = none) ∧
    (∀ root, reg_find reg ucrtRegKey "KitsRoot10" = some root →
      fs.pathExists (pjoin root "Lib") = false →
      detect_ucrt fs reg = none) ∧
    (∀ info, detect_ucrt fs reg = some info →
      ∃ root names, reg_find reg ucrtRegKey "KitsRoot10" = some root ∧
        info.path = root ∧
        fs.readDir (pjoin root "Lib") = some names ∧
        info.version ∈ names ∧
        ucrtEntryOk fs (pjoin root "Lib") info.version = true ∧
        ∀ n ∈ names, ucrtEntryOk fs (pjoin root "Lib") n = true →
          strLe n info.version = true) := by
  refine ⟨?_, ?_, ?_⟩
  · intro h
    simp [detect_ucrt, h]
  · intro root hr hni
    simp [detect_ucrt, hr, hni]
  · intro info h
    simp only [detect_ucrt] at h
    split at h
    · exact absurd h (by simp)
    · rename_i root hr
      split at h
      · split at h
        · exact absurd h (by simp)
        · rename_i names hd
          split at h
          · exact absurd h (by simp)
          · rename_i v rest hs
            have h2 := Option.some.inj h
            obtain ⟨hvn, hvok, hmax⟩ := insSort_filter_head_max _ names v rest hs
            refine ⟨root, names, hr, ?_, hd, ?_, ?_, ?_⟩
            · rw [← h2]
            · rw [← h2]
              exact hvn
            · rw [← h2]
              exact hvok
            · intro n hn hok
              rw [← h2]
              exact hmax n hn hok
      · exact absurd h (by simp)

/-- Claim C4: detect_sdk and detect_ucrt return a version that is the
lexicographically maximal directory name among the 10.* entries
carrying the required marker file, never return an entry lacking its
marker (the marker check is part of the surviving-entry predicate),
and return none when the registry lookup fails or when the fixed
include respectively Lib subdirectory of the root does not exist. -/
theorem detect_sdk_ucrt_max_and_markers (fs : FS) (reg : Registry) :
    ((reg_find reg sdkRegKey "InstallationFolder" = none →
      detect_sdk fs reg = none) ∧
    (∀ root, reg_find reg sdkRegKey "InstallationFolder" = some root →
      fs.pathExists (pjoin root "include") = false →
      detect_sdk fs reg = none) ∧
    (∀ info, detect_sdk fs reg = some info →
      ∃ root names, reg_find reg sdkRegKey "InstallationFolder" = some root ∧
        info.path = root ∧
        fs.readDir (pjoin root "include") = some names ∧
        info.version ∈ names ∧
        sdkEntryOk fs (pjoin root "include") info.version = true ∧
        ∀ n ∈ names, sdkEntryOk fs (pjoin root "include") n = true →
          strLe n info.version = true)) ∧
    ((reg_find reg ucrtRegKey "KitsRoot10" = none →
      detect_ucrt fs reg = none) ∧
    (∀ root, reg_find reg ucrtRegKey "KitsRoot10" = some root →
      fs.pathExists (pjoin root "Lib") = false →
      detect_ucrt fs reg = none) ∧
    (∀ info, detect_ucrt fs reg = some info →
      ∃ root names, reg_find reg ucrtRegKey "KitsRoot10" = some root ∧
        info.path = root ∧
        fs.readDir (pjoin root "Lib") = some names ∧
        info.version ∈ names ∧
        ucrtEntryOk fs (pjoin root "Lib") info.version = true ∧
        ∀ n ∈ names, ucrtEntryOk fs (pjoin root "Lib") n = true →
          strLe n info.version = true)) :=
  ⟨detect_sdk_char fs reg, detect_ucrt_char fs reg⟩

/-- Witness for C4 at the SDK scenario fixture: the 10.0.19041.0 entry
lacks its marker, the 10.0.22000.0 entry carries it, and detection
returns 10.0.22000.0; the theorem is applied to that outcome. -/
theorem detect_sdk_ucrt_max_and_markers_witness :
    detect_sdk fsSdk regSdk = some ⟨"R", "10.0.22000.0"⟩ ∧
    (∃ root names,
      reg_find regSdk sdkRegKey "InstallationFolder" = some root ∧
      SdkInfo.path ⟨"R", "10.0.22000.0"⟩ = root ∧
      fsSdk.readDir (pjoin root "include") = some names ∧
      SdkInfo.version ⟨"R", "10.0.22000.0"⟩ ∈ names ∧
      sdkEntryOk fsSdk (pjoin root "include")
        (SdkInfo.version ⟨"R", "10.0.22000.0"⟩) = true ∧
      ∀ n ∈ names, sdkEntryOk fsSdk (pjoin root "include") n = true →
        strLe n (SdkInfo.version ⟨"R", "10.0.22000.0"⟩) = true) :=
  ⟨by decide,
   (detect_sdk_ucrt_max_and_markers fsSdk regSdk).1.2.2
     ⟨"R", "10.0.22000.0"⟩ (by decide)⟩

/-- Claim C7: detect_ucrt takes no target-architecture input at all, so its
version selection cannot depend on the eventual target; the existence
signal it validated for the returned version is always the x64 marker
Lib/(version)/ucrt/x64/ucrt.lib under the resolved root. -/
theorem detect_ucrt_marker_always_x64 (fs : FS) (reg : Registry)
    (info : SdkInfo) (h : detect_ucrt fs reg = some info) :
    strStartsWith info.version "10." = true ∧
    fs.pathExists
      (pjoin (pjoin (pjoin (pjoin (pjoin info.path "Lib") info.version)
        "ucrt") "x64") "ucrt.lib") = true := by
  obtain ⟨root, names, -, hpath, -, -, hok, -⟩ :=
    (detect_ucrt_char fs reg).2.2 info h
  rw [ucrtEntryOk, Bool.and_eq_true, Bool.and_eq_true] at hok
  subst hpath
  exact ⟨hok.2.1, hok.2.2⟩

/-- Witness for C7 at the UCRT fixture. -/
theorem detect_ucrt_marker_always_x64_witness :
    strStartsWith (SdkInfo.version ⟨"U", "10.0.22000.0"⟩) "10." = true ∧
    fsUcrt.pathExists
      (pjoin (pjoin (pjoin (pjoin (pjoin (SdkInfo.path ⟨"U", "10.0.22000.0"⟩)
        "Lib") (SdkInfo.version ⟨"U", "10.0.22000.0"⟩))
        "ucrt") "x64") "ucrt.lib") = true :=
  detect_ucrt_marker_always_x64 fsUcrt regUcrt ⟨"U", "10.0.22000.0"⟩ (by decide)

/-- Appending existence-filtered paths preserves the invariant that
every collected path exists. -/
theorem pathExists_of_mem_add (fs : FS) {lst paths : List String}
    (h : ∀ p ∈ lst, fs.pathExists p = true) :
    ∀ p ∈ add_if_exists fs lst paths, fs.pathExists p = true := by
  intro p hp
  rcases List.mem_append.mp hp with h1 | h2
  · exact h p h1
  · exact (List.mem_filter.mp h2).2

/-- Claim C2: every path placed in any of the four output lists of build_env
exists on the filesystem the assembly was run against, and the
assembly is a pure function of the filesystem and its inputs, so
repeating the call against an unchanged filesystem yields the same
result. -/
theorem build_env_paths_exist (fs : FS) (vs : VsInfo)
    (sdk ucrt : Option SdkInfo) (host target : Arch) :
    (∀ p ∈ (build_env fs vs sdk ucrt host target).path,
      fs.pathExists p = true) ∧
    (∀ p ∈ (build_env fs vs sdk ucrt host target).inc,
      fs.pathExists p = true) ∧
    (∀ p ∈ (build_env fs vs sdk ucrt host target).lib,
      fs.pathExists p = true) ∧
    (∀ p ∈ (build_env fs vs sdk ucrt host target).libpath,
      fs.pathExists p = true) ∧
    build_env fs vs sdk ucrt host target =
      build_env fs vs sdk ucrt host target := by
  have hnil : ∀ p ∈ ([] : List String), fs.pathExists p = true := by
    intro p hp
    exact absurd hp (List.not_mem_nil p)
  refine ⟨?_, ?_, ?_, ?_, rfl⟩ <;>
    cases sdk <;> cases ucrt <;>
    simp only [build_env] <;>
    (try split) <;>
    (repeat' apply pathExists_of_mem_add fs) <;>
    exact hnil

/-- Witness for C2: a concrete existing binary directory collected by
build_env is confirmed to exist on the fixture filesystem. -/
theorem build_env_paths_exist_witness :
    fsBins.pathExists "A\\VC\\Tools\\MSVC\\1.0\\bin\\Hostx64\\x64" = true :=
  (build_env_paths_exist fsBins vs0 none none Arch.X64 Arch.X64).1
    "A\\VC\\Tools\\MSVC\\1.0\\bin\\Hostx64\\x64" (by decide)

/-- Counterexample for claim C5: on a filesystem where the constructed binary
directories do not exist, the executable search path of build_env with
equal host and target has zero entries, not exactly one; the
existence filter means the stated entry counts do not hold
unconditionally. -/
theorem build_env_path_count_counterexample :
    ¬ ((build_env fsNone vs0 none none Arch.X64 Arch.X64).path.length = 1) := by
  decide

/-- Claim C5 as amended: provided the constructed host-for-target binary
directory exists, and the host-native one exists in the cross case,
the executable search path with no SDK resolved is exactly the
host-native entry when host equals target, and exactly the
target-specific entry followed by the host-native entry when they
differ. -/
theorem build_env_path_entries (fs : FS) (vs : VsInfo) (ucrt : Option SdkInfo)
    (host target : Arch)
    (h1 : fs.pathExists
      (pjoin (pjoin (pjoin vs.tools "bin") (hostDir host)) target.as_str) = true)
    (h2 : host ≠ target → fs.pathExists
      (pjoin (pjoin (pjoin vs.tools "bin") (hostDir host)) host.as_str) = true) :
    (build_env fs vs none ucrt host target).path =
      if host = target then
        [pjoin (pjoin (pjoin vs.tools "bin") (hostDir host)) target.as_str]
      else
        [pjoin (pjoin (pjoin vs.tools "bin") (hostDir host)) target.as_str,
         pjoin (pjoin (pjoin vs.tools "bin") (hostDir host)) host.as_str] := by
  cases ucrt <;>
  · by_cases heq : host = target
    · subst heq
      simp [build_env, add_if_exists, h1]
    · simp [build_env, add_if_exists, heq, h1, h2 heq]

/-- Witness for the amended C5 theorem in the cross case x64 to
arm64. -/
theorem build_env_path_entries_witness :
    (build_env fsBins vs0 none none Arch.X64 Arch.Arm64).path =
      if Arch.X64 = Arch.Arm64 then
        [pjoin (pjoin (pjoin vs0.tools "bin") (hostDir Arch.X64))
          (Arch.as_str Arch.Arm64)]
      else
        [pjoin (pjoin (pjoin vs0.tools "bin") (hostDir Arch.X64))
          (Arch.as_str Arch.Arm64),
         pjoin (pjoin (pjoin vs0.tools "bin") (hostDir Arch.X64))
          (Arch.as_str Arch.X64)] :=
  build_env_path_entries fsBins vs0 none Arch.X64 Arch.Arm64
    (by decide) (fun _ => by decide)

/-- Unrolled probe order of reg_find: first success among the four
authority-and-prefix combinations in their fixed order. -/
theorem reg_find_eq_or (reg : Registry) (path name : String) :
    reg_find reg path name =
      ((reg_val reg RegRoot.HKLM ("SOFTWARE\\Wow6432Node" ++ "\\" ++ path) name).or
        ((reg_val reg RegRoot.HKLM ("SOFTWARE" ++ "\\" ++ path) name).or
          ((reg_val reg RegRoot.HKCU ("SOFTWARE\\Wow6432Node" ++ "\\" ++ path) name).or
            (reg_val reg RegRoot.HKCU ("SOFTWARE" ++ "\\" ++ path) name)))) := by
  simp only [reg_find, List.findSome?_cons, List.findSome?_nil]
  cases reg_val reg RegRoot.HKLM ("SOFTWARE\\Wow6432Node" ++ "\\" ++ path) name <;>
    cases reg_val reg RegRoot.HKLM ("SOFTWARE" ++ "\\" ++ path) name <;>
    cases reg_val reg RegRoot.HKCU ("SOFTWARE\\Wow6432Node" ++ "\\" ++ path) name <;>
    cases reg_val reg RegRoot.HKCU ("SOFTWARE" ++ "\\" ++ path) name <;>
    rfl

/-- Counterexample for claim C6: in the fixture registry the machine-wide native
key K holds the value native while its Wow6432Node shadow holds the
value shadow, and reg_find returns the shadow value; the
32-bit-compatibility entries are therefore preferred, not consulted
as a fallback. -/
theorem reg_find_shadow_preferred_counterexample :
    reg_val regShadow RegRoot.HKLM "SOFTWARE\\K" "V" = some "native" ∧
    reg_find regShadow "K" "V" = some "shadow" ∧
    ("shadow" : String) ≠ "native" := by
  refine ⟨by decide, ?_, by decide⟩
  decide

/-- Claim C6 as amended: for every relative key path and value name, reg_find
probes exactly the four authority-and-prefix combinations in the fixed
order machine-wide before user-specific crossed with the
32-bit-compatibility prefix before the native prefix, returns the
first successful read while short-circuiting the rest; within each
authority the 32-bit-compatibility shadow entry is checked before the
native entry and is therefore preferred when both exist. -/
theorem reg_find_probe_order (reg : Registry) (path name : String) :
    (reg_find reg path name =
      ((reg_val reg RegRoot.HKLM ("SOFTWARE\\Wow6432Node" ++ "\\" ++ path) name).or
        ((reg_val reg RegRoot.HKLM ("SOFTWARE" ++ "\\" ++ path) name).or
          ((reg_val reg RegRoot.HKCU ("SOFTWARE\\Wow6432Node" ++ "\\" ++ path) name).or
            (reg_val reg RegRoot.HKCU ("SOFTWARE" ++ "\\" ++ path) name))))) ∧
    (∀ v, reg_val reg RegRoot.HKLM ("SOFTWARE\\Wow6432Node" ++ "\\" ++ path) name = some v →
      reg_find reg path name = some v) ∧
    (∀ v, reg_val reg RegRoot.HKLM ("SOFTWARE\\Wow6432Node" ++ "\\" ++ path) name = none →
      reg_val reg RegRoot.HKLM ("SOFTWARE" ++ "\\" ++ path) name = some v →
      reg_find reg path name = some v) := by
  refine ⟨reg_find_eq_or reg path name, ?_, ?_⟩
  · intro v hv
    rw [reg_find_eq_or reg path name, hv]
    rfl
  · intro v h0 hv
    rw [reg_find_eq_or reg path name, h0, hv]
    rfl

/-- Witness for the amended C6 theorem: in the fixture registry the
shadow value wins the probe sequence. -/
theorem reg_find_probe_order_witness :
    reg_find regShadow "K" "V" = some "shadow" :=
  (reg_find_probe_order regShadow "K" "V").2.1 "shadow" (by decide)

/-- Claim C8: the bash rendering applies Windows-to-POSIX conversion only to
the executable search path entries, whose line is built from the
win_to_unix images joined by colons, while the header, library and
reference lists and the named variables are rendered with their native
text; the final conjunct records the drive-letter conversion on a
concrete path. -/
theorem fmt_sh_converts_only_path (env : Env) :
    fmt_sh env = String.intercalate "\n" (fmtShLines env) ∧
    (env.path ≠ [] →
      ("export PATH=\"" ++ String.intercalate ":" (env.path.map win_to_unix)
        ++ ":$PATH\"") ∈ fmtShLines env) ∧
    (env.inc ≠ [] →
      ("export INCLUDE=\"" ++ String.intercalate ";" env.inc
        ++ ";$INCLUDE\"") ∈ fmtShLines env) ∧
    (env.lib ≠ [] →
      ("export LIB=\"" ++ String.intercalate ";" env.lib
        ++ ";$LIB\"") ∈ fmtShLines env) ∧
    (env.libpath ≠ [] →
      ("export LIBPATH=\"" ++ String.intercalate ";" env.libpath
        ++ ";$LIBPATH\"") ∈ fmtShLines env) ∧
    (∀ k v, (k, v) ∈ env.vars →
      ("export " ++ k ++ "=\"" ++ v ++ "\"") ∈ fmtShLines env) ∧
    win_to_unix "C:\\Dir\\Sub" = "/c/Dir/Sub" := by
  refine ⟨rfl, ?_, ?_, ?_, ?_, ?_, by decide⟩
  · intro h
    simp [fmtShLines, List.isEmpty_iff, h]
  · intro h
    simp [fmtShLines, List.isEmpty_iff, h]
  · intro h
    simp [fmtShLines, List.isEmpty_iff, h]
  · intro h
    simp [fmtShLines, List.isEmpty_iff, h]
  · intro k v h
    exact List.mem_append_right _ (List.mem_map_of_mem _ h)

/-- Witness for C8 at the fixture environment: the PATH line carries
the converted entry and the INCLUDE line carries the native entry. -/
theorem fmt_sh_converts_only_path_witness :
    ("export PATH=\"" ++ String.intercalate ":" ((Env.path envSh).map win_to_unix)
      ++ ":$PATH\"") ∈ fmtShLines envSh ∧
    ("export INCLUDE=\"" ++ String.intercalate ";" (Env.inc envSh)
      ++ ";$INCLUDE\"") ∈ fmtShLines envSh :=
  ⟨(fmt_sh_converts_only_path envSh).2.1 (by decide),
   (fmt_sh_converts_only_path envSh).2.2.1 (by decide)⟩

/-- Claim C10: in the variables table of build_env the SDK version variable
WindowsSDKVersion is the version string with a trailing backslash
appended, while the runtime version variable UCRTVersion and the
toolset version variable VCToolsVersion are bare version strings with
no trailing separator. -/
theorem build_env_version_vars (fs : FS) (vs : VsInfo) (s u : SdkInfo)
    (host target : Arch) :
    varsLookup (build_env fs vs (some s) (some u) host target).vars
      "WindowsSDKVersion" = some (s.version ++ "\\") ∧
    varsLookup (build_env fs vs (some s) (some u) host target).vars
      "UCRTVersion" = some u.version ∧
    varsLookup (build_env fs vs (some s) (some u) host target).vars
      "VCToolsVersion" = some vs.tools_ver :=
  ⟨rfl, rfl, rfl⟩
